import Mathlib

/-! # tkn customrun delete, and plugin dispatch

A shallow embedding of `pkg/cmd/customrun/delete.go` (`deleteCommand`,
`deleteCustomRuns`, `deleteCustomRun`) together with the collaborators the
code calls: Go error values, the `cli.Stream` writers, the standard logger,
and the dynamic client backed by an object tracker, which is the client the
unit tests in `delete_test.go` construct.

Go mutates the client, the writers and the logger in place; here every
function returns the new value of what it may have changed.
-/

set_option autoImplicit false

namespace Tkn

/-! ## Go error values -/

/-- Go error values that occur in this code.
* `status reason message` is an `*apierrors.StatusError` with that reason and message;
* `errorString s` is an error without an inner error (`errors.New`, `fmt.Errorf` without `%w`);
* `wrapError msg err` is what `fmt.Errorf` builds for a format with one `%w`:
  `msg` is the whole formatted text and `err` the wrapped error. -/
inductive GoError where
  | status (reason : String) (message : String)
  | errorString (s : String)
  | wrapError (msg : String) (err : GoError)
  deriving DecidableEq, Repr

/-- The `Error()` method. -/
def GoError.Error : GoError → String
  | .status _ message => message
  | .errorString s => s
  | .wrapError msg _ => msg

/-- The `Unwrap()` method, `none` where the error has no inner error. -/
def GoError.Unwrap : GoError → Option GoError
  | .status _ _ => none
  | .errorString _ => none
  | .wrapError _ err => some err

/-- Value of `metav1.StatusReasonNotFound`. -/
def StatusReasonNotFound : String := "NotFound"

/-- Value of `metav1.StatusReasonUnknown`. -/
def StatusReasonUnknown : String := ""

/-- The function `apierrors.ReasonForError` on a non-nil error: the reason of the
first status error on the `Unwrap` chain. -/
def ReasonForErrorAux : GoError → String
  | .status reason _ => reason
  | .errorString _ => StatusReasonUnknown
  | .wrapError _ err => ReasonForErrorAux err

/-- The function `apierrors.ReasonForError`; `none` is the nil error. -/
def ReasonForError : Option GoError → String
  | none => StatusReasonUnknown
  | some err => ReasonForErrorAux err

/-- The function `apierrors.IsNotFound`: the reason of the error is NotFound. (Later
versions of the library also accept a status of unknown reason with HTTP code 404; the
status errors built here all carry the reason NotFound.) -/
def IsNotFound (err : Option GoError) : Bool :=
  ReasonForError err == StatusReasonNotFound

/-- The call `fmt.Errorf("failed to delete CustomRun %s: %w", crName, err)`. -/
def errorfFailedToDelete (crName : String) (err : GoError) : GoError :=
  .wrapError ("failed to delete CustomRun " ++ crName ++ ": " ++ err.Error) err

/-- The call `fmt.Errorf("failed to create tekton client: %w", err)`. -/
def errorfFailedToCreateClient (err : GoError) : GoError :=
  .wrapError ("failed to create tekton client: " ++ err.Error) err

/-! ## The dynamic client -/

/-- The type `schema.GroupVersionResource`. -/
structure GroupVersionResource where
  Group : String
  Version : String
  Resource : String
  deriving DecidableEq, Repr

/-- The text of `gvr.GroupResource().String()`. -/
def GroupVersionResource.groupResourceString (gvr : GroupVersionResource) : String :=
  if gvr.Group.length = 0 then gvr.Resource else gvr.Resource ++ "." ++ gvr.Group

/-- An object held by the tracker: its resource, namespace and name, and the
rest of the unstructured object as an uninterpreted value. -/
structure Object where
  gvr : GroupVersionResource
  ns : String
  name : String
  content : String
  deriving DecidableEq, Repr

/-- An invocation recorded by the fake client (`testing.Action`): the verb, the
resource, the namespace and the name it was called with. -/
structure Action where
  verb : String
  gvr : GroupVersionResource
  ns : String
  name : String
  deriving DecidableEq, Repr

/-- The dynamic client of the tests (`testDynamic.Options{}.Client(objs...)`): the
objects of its tracker and the invocations made so far, oldest first. -/
structure DynamicClient where
  tracker : List Object
  actions : List Action
  deriving DecidableEq, Repr

/-- Whether the object is the one stored under the key (resource, namespace, name). -/
def Object.hasKey (o : Object) (gvr : GroupVersionResource) (ns name : String) : Bool :=
  decide (o.gvr = gvr) && decide (o.ns = ns) && decide (o.name = name)

/-- Go's `%q` for a string, for text without control or non-printable characters:
double quotes around it, with the double quote and the backslash escaped. -/
def quoteString (s : String) : String :=
  "\"" ++ String.join (s.toList.map fun c =>
    if c = '"' then "\\\"" else if c = '\\' then "\\\\" else String.singleton c) ++ "\""

/-- The call `apierrors.NewNotFound(gvr.GroupResource(), name)`. -/
def NewNotFound (gvr : GroupVersionResource) (name : String) : GoError :=
  .status StatusReasonNotFound (gvr.groupResourceString ++ " " ++ quoteString name ++ " not found")

/-- The call `c.Resource(gvr).Namespace(ns).Get(ctx, name, metav1.GetOptions{})`: the
object stored under the key, or a not-found status error. The invocation is recorded. -/
def DynamicClient.Get (c : DynamicClient) (gvr : GroupVersionResource) (ns name : String) :
    Except GoError Object × DynamicClient :=
  let c1 := { c with actions := c.actions ++ [⟨"get", gvr, ns, name⟩] }
  match c.tracker.find? (fun o => o.hasKey gvr ns name) with
  | some o => (.ok o, c1)
  | none => (.error (NewNotFound gvr name), c1)

/-- The call `c.Resource(gvr).Namespace(ns).Delete(ctx, name, metav1.DeleteOptions{})`: the
tracker removes the object stored under the key, or answers with a not-found status
error and keeps its objects. The invocation is recorded either way. -/
def DynamicClient.Delete (c : DynamicClient) (gvr : GroupVersionResource) (ns name : String) :
    Option GoError × DynamicClient :=
  let c1 := { c with actions := c.actions ++ [⟨"delete", gvr, ns, name⟩] }
  if c.tracker.any (fun o => o.hasKey gvr ns name) then
    (none, { c1 with tracker := c.tracker.filter (fun o => !o.hasKey gvr ns name) })
  else
    (some (NewNotFound gvr name), c1)

/-- The type `cli.Clients`, with the one field this code uses. -/
structure Clients where
  Dynamic : DynamicClient
  deriving DecidableEq, Repr

/-! ## Streams and the standard logger -/

/-- An `io.Writer`, as the list of the texts passed to its `Write`, oldest first. -/
structure Writer where
  written : List String
  deriving DecidableEq, Repr

/-- The type `cli.Stream`. A field that is `none` is a nil interface value, as in the
`&cli.Stream{}` of the tests. `In` is the text still to be read. -/
structure Stream where
  In : Option String
  Out : Option Writer
  Err : Option Writer
  deriving DecidableEq, Repr

/-- The call `fmt.Fprintf(w, ...)` with the formatted `text`: the writer after the
write, or `none` when `w` is nil, where Go panics with a nil dereference. -/
def Fprintf (w : Option Writer) (text : String) : Option Writer :=
  w.map fun wr => { wr with written := wr.written ++ [text] }

/-- How a Go call ends: it returns its error result (`none` is nil), or it panics. -/
inductive Outcome where
  | returned (err : Option GoError)
  | panicked
  deriving DecidableEq, Repr

/-- What a call of `deleteCustomRuns` leaves behind: how it ended, the stream, the
clients, and the messages given to the standard logger (`log.Printf`), oldest first. -/
structure Run where
  ret : Outcome
  s : Stream
  clients : Clients
  log : List String
  deriving DecidableEq, Repr

/-! ## delete.go -/

section

variable (customrunGroupResource : GroupVersionResource)

/-- Go: `deleteCustomRun`. The package variable `customrunGroupResource` is declared in
another file of the package and is a parameter here. The Go parameter `namespace` is
`ns` throughout, `namespace` being a keyword. The second component is the client after
the call. -/
def deleteCustomRun (cs : Clients) (ns crName : String) : Option GoError × Clients :=
  match cs.Dynamic.Delete customrunGroupResource ns crName with
  | (some err, d) => (some (errorfFailedToDelete crName err), { cs with Dynamic := d })
  | (none, d) => (none, { cs with Dynamic := d })

/-- The text of `log.Printf("CustomRun %s deleted successfully\n", crName)`. -/
def deletedMessage (crName : String) : String :=
  "CustomRun " ++ crName ++ " deleted successfully\n"

/-- The text of `fmt.Fprintf(s.Err, "failed to delete CustomRun %s: %v\n", crName, err)`. -/
def failedLine (crName : String) (err : GoError) : String :=
  "failed to delete CustomRun " ++ crName ++ ": " ++ err.Error ++ "\n"

/-- Go: `deleteCustomRuns`. The loop over `crNames` is the recursion on the list; `log`
holds the messages the standard logger has received so far. A failing delete writes to
`s.Err` before the error is returned, and the write panics when `s.Err` is nil. -/
def deleteCustomRuns (s : Stream) (clients : Clients) (ns : String) :
    List String → List String → Run
  | [], log => { ret := .returned none, s := s, clients := clients, log := log }
  | crName :: rest, log =>
    match deleteCustomRun customrunGroupResource clients ns crName with
    | (none, clients1) =>
      deleteCustomRuns s clients1 ns rest (log ++ [deletedMessage crName])
    | (some err, clients1) =>
      match Fprintf s.Err (failedLine crName err) with
      | none => { ret := .panicked, s := s, clients := clients1, log := log }
      | some w => { ret := .returned (some err), s := { s with Err := some w },
                    clients := clients1, log := log }

/-- Index of the first name whose delete fails when the names are deleted in order by
`deleteCustomRun`, each on the clients the delete before it left; `none` when every
delete succeeds. -/
def firstFailure (clients : Clients) (ns : String) : List String → Option Nat
  | [] => none
  | crName :: rest =>
    match deleteCustomRun customrunGroupResource clients ns crName with
    | (some _, _) => some 0
    | (none, clients1) => (firstFailure clients1 ns rest).map (· + 1)

/-- The clients after `deleteCustomRun` has been called for each of the names in order. -/
def afterDeletes (clients : Clients) (ns : String) : List String → Clients
  | [] => clients
  | crName :: rest => afterDeletes (deleteCustomRun customrunGroupResource clients ns crName).2 ns rest

/-- A CustomRun of that name exists in the namespace: a `Get` of it succeeds. -/
def existsIn (clients : Clients) (ns name : String) : Bool :=
  (clients.Dynamic.Get customrunGroupResource ns name).1.toBool

/-- The delete invocation `deleteCustomRun` makes for a name. -/
def deleteAction (ns name : String) : Action :=
  ⟨"delete", customrunGroupResource, ns, name⟩

/-! ### The command -/

/-- The type `cli.Params`, as far as `deleteCommand` uses it: what `p.Clients()` and
`p.Namespace()` return. -/
structure Params where
  Clients : Except GoError Clients
  Namespace : String

/-- What the command acts on: the streams of the cobra command (`cmd.InOrStdin()`,
`cmd.OutOrStdout()`, `cmd.OutOrStderr()`), the standard logger, how often `p.Clients()`
has been called, and the clients it handed out, in their latest state. -/
structure World where
  InOrStdin : String
  OutOrStdout : Writer
  OutOrStderr : Writer
  log : List String
  clientsCalls : Nat
  clients : Option Clients
  deriving DecidableEq, Repr

/-- The fields of `cobra.Command` that `deleteCommand` sets. -/
structure Command where
  Use : String
  Short : String
  Example : String
  Args : List String → Option GoError
  RunE : World → List String → Outcome × World

/-- The validator `cobra.MinimumNArgs(n)`. -/
def MinimumNArgs (n : Nat) (args : List String) : Option GoError :=
  if args.length < n then
    some (.errorString ("requires at least " ++ toString n ++ " arg(s), only received " ++
      toString args.length))
  else none

/-- The `RunE` closure of `deleteCommand`. -/
def deleteCommandRunE (p : Params) (w : World) (args : List String) : Outcome × World :=
  let crNames := args
  let s : Stream := { In := some w.InOrStdin, Out := some w.OutOrStdout, Err := some w.OutOrStderr }
  let w1 := { w with clientsCalls := w.clientsCalls + 1 }
  match p.Clients with
  | .error err => (.returned (some (errorfFailedToCreateClient err)), w1)
  | .ok cs =>
    let r := deleteCustomRuns customrunGroupResource s cs p.Namespace crNames w1.log
    let w2 := { w1 with OutOrStderr := r.s.Err.getD w1.OutOrStderr, log := r.log,
                        clients := some r.clients }
    match r.ret with
    | .returned (some err) => (.returned (some err), w2)
    | .returned none => (.returned none, w2)
    | .panicked => (.panicked, w2)

/-- Go: `deleteCommand`. The print flags that `f.AddFlags(c)` registers are not part of
the structure: the arguments seen here are those left after flag parsing. -/
def deleteCommand (p : Params) : Command where
  Use := "delete"
  Short := "Delete CustomRuns having a specific name in a namespace"
  Example := "Delete CustomRun with name \x27foo\x27 in namespace \x27bar\x27:\n\n    tkn customrun delete foo -n bar\n\nor\n\n    tkn cr rm foo -n bar\n"
  Args := MinimumNArgs 1
  RunE := deleteCommandRunE customrunGroupResource p

end

/-- How cobra runs a command on the arguments left after flag parsing
(`(*Command).execute`): the `Args` validator first, and `RunE` only when it accepts. -/
def Command.execute (c : Command) (w : World) (argWoFlags : List String) : Outcome × World :=
  match c.Args argWoFlags with
  | some err => (.returned (some err), w)
  | none => c.RunE w argWoFlags

/-! ## Fixtures of delete_test.go -/

/-- The resource under which the fixtures are stored and deleted. -/
def fixtureResource : GroupVersionResource := ⟨"tekton.dev", "v1beta1", "customruns"⟩

/-- A CustomRun of the fixtures, by namespace and name. -/
def fixtureObject (ns name : String) : Object := ⟨fixtureResource, ns, name, "CustomRun"⟩

/-- The clients of `TestDeleteSingleCustomRun` and `TestDeleteMultipleCustomRuns`:
`customrun-1` and `customrun-2` in namespace `foo`. -/
def fooClients : Clients :=
  ⟨⟨[fixtureObject "foo" "customrun-1", fixtureObject "foo" "customrun-2"], []⟩⟩

/-- The clients of `TestNamespaceSpecificDeletion`: `customrun-1` in `foo`, `customrun-2`
in `bar`. -/
def fooBarClients : Clients :=
  ⟨⟨[fixtureObject "foo" "customrun-1", fixtureObject "bar" "customrun-2"], []⟩⟩

/-- The stream `&cli.Stream{}` the tests pass: every field nil. -/
def emptyStream : Stream := ⟨none, none, none⟩

/-- A stream whose writers have not been written to yet. -/
def freshStream : Stream := ⟨some "", some ⟨[]⟩, some ⟨[]⟩⟩

/-- A world in which nothing has been written and `p.Clients()` has not been called. -/
def freshWorld : World := ⟨"", ⟨[]⟩, ⟨[]⟩, [], 0, none⟩

/-- Params whose `Clients()` hands out the clients of the fixtures, in namespace `foo`. -/
def fooParams : Params := ⟨.ok fooClients, "foo"⟩

end Tkn

/-! ## Plugin dispatch

The dispatcher itself (the code behind `tkn <plugin> args...`) is not among the source
files; `test/e2e/plugin/plugin_test.go` exercises it from outside. The definitions
below follow the specification of the dispatcher, component by component. -/

namespace Plugin

/-- Modelled from the spec: the SearchPath of the data model, an ordered sequence of
directory paths whose order is the precedence of resolution. The resolver, locator,
router, invoker and translator that use it are missing from the sources. -/
abbrev SearchPath := List String

/-- Modelled from the spec: the PluginCandidate of the data model. -/
structure PluginCandidate where
  commandName : String
  directory : String
  absolutePath : String
  isExecutable : Bool
  deriving DecidableEq, Repr

/-- Modelled from the spec: the InvocationRequest of the data model. The three stream
handles are inherited from the parent process and carry no data here. -/
structure InvocationRequest where
  executablePath : String
  arguments : List String
  environment : List (String × String)
  deriving DecidableEq, Repr

/-- Modelled from the spec: the InvocationResult of the data model, of whose three fields
exactly one is meaningful per invocation. -/
inductive InvocationResult where
  | exited (exitCode : Int)
  | terminatedBySignal (signal : Nat)
  | spawnError (message : String)
  deriving DecidableEq, Repr

/-- A file of a directory: its name and whether it has executable permission. -/
structure FileEntry where
  fileName : String
  isExecutable : Bool
  deriving DecidableEq, Repr

/-- Modelled from the spec: what surrounds one invocation of the host, and the values the
specification leaves open. `environment` is the parent environment and `overrideName` the
name of the override variable; `listDir` gives the files of a directory, `none` for a
directory that does not exist; `pluginFileName` is the naming convention; `spawn` is what
the operating system answers when the request is spawned and waited for; `signalExit` is
the code for a child ended by a signal and `dispatchFailure` the reserved code. -/
structure Host where
  environment : List (String × String)
  overrideName : String
  defaultPath : SearchPath
  listDir : String → Option (List FileEntry)
  pluginFileName : String → String
  builtins : List String
  builtinExit : String → List String → Int
  spawn : InvocationRequest → InvocationResult
  signalExit : Nat → Int
  dispatchFailure : Int

/-- Modelled from the spec: SearchPathResolver.Resolve. The override variable, when set
and non-empty, is the sole search directory; otherwise the default list applies. -/
def Resolve (h : Host) : SearchPath :=
  match h.environment.lookup h.overrideName with
  | some dir => if dir = "" then h.defaultPath else [dir]
  | none => h.defaultPath

/-- Modelled from the spec: the result of PluginLocator.Find. -/
inductive FindResult where
  | found (c : PluginCandidate)
  | notFound
  | notExecutable
  deriving DecidableEq, Repr

/-- Modelled from the spec: the scan of PluginLocator.Find. The first directory with an
existing executable file of the plugin name wins; a file without executable permission
counts as absent and is remembered in `seen`; a directory that does not exist is skipped. -/
def findIn (h : Host) (commandName : String) : SearchPath → Bool → FindResult
  | [], seen => if seen then .notExecutable else .notFound
  | dir :: rest, seen =>
    match h.listDir dir with
    | none => findIn h commandName rest seen
    | some files =>
      match files.find? (fun f => f.fileName == h.pluginFileName commandName) with
      | none => findIn h commandName rest seen
      | some f =>
        if f.isExecutable then
          .found ⟨commandName, dir, dir ++ "/" ++ f.fileName, true⟩
        else findIn h commandName rest true

/-- Modelled from the spec: PluginLocator.Find. -/
def Find (h : Host) (commandName : String) (searchPath : SearchPath) : FindResult :=
  findIn h commandName searchPath false

/-- Modelled from the spec: where CommandRouter ends up for a leading token and the
remaining tokens. -/
inductive Dispatch where
  | builtin (command : String) (arguments : List String)
  | plugin (request : InvocationRequest)
  | unknownCommand
  | notExecutable
  deriving DecidableEq, Repr

/-- Modelled from the spec: CommandRouter. A built-in takes precedence; on a miss the
locator is asked for the same token, and the remaining tokens are forwarded. -/
def route (h : Host) (token : String) (rest : List String) : Dispatch :=
  if token ∈ h.builtins then .builtin token rest
  else
    match Find h token (Resolve h) with
    | .found c => .plugin ⟨c.absolutePath, rest, h.environment⟩
    | .notFound => .unknownCommand
    | .notExecutable => .notExecutable

/-- Modelled from the spec: PluginInvoker.Invoke, the spawn of the request and the wait
for the child. -/
def Invoke (h : Host) (request : InvocationRequest) : InvocationResult :=
  h.spawn request

/-- Modelled from the spec: ExitStatusTranslator.Translate. -/
def Translate (h : Host) : InvocationResult → Int
  | .exited exitCode => exitCode
  | .terminatedBySignal signal => h.signalExit signal
  | .spawnError _ => h.dispatchFailure

/-- Modelled from the spec: the exit code of the host process for a command line, along
the control flow CommandRouter, SearchPathResolver, PluginLocator, PluginInvoker,
ExitStatusTranslator. -/
def hostExit (h : Host) (token : String) (rest : List String) : Int :=
  match route h token rest with
  | .builtin command arguments => h.builtinExit command arguments
  | .plugin request => Translate h (Invoke h request)
  | .unknownCommand => h.dispatchFailure
  | .notExecutable => h.dispatchFailure

/-- The host of `TestTknPlugin`: the override variable names the directory of the test,
which holds the plugins `tkn-success` and `tkn-failure`, described by the
specification: `success` exits 0 whatever its arguments, `failure` exits 12, and 20 when
its first argument is `exit20`. -/
def e2eHost : Host where
  environment := [("TKN_PLUGINS_DIR", "/test/e2e/plugin")]
  overrideName := "TKN_PLUGINS_DIR"
  defaultPath := ["/usr/local/bin"]
  listDir := fun dir =>
    if dir = "/test/e2e/plugin" then some [⟨"tkn-success", true⟩, ⟨"tkn-failure", true⟩]
    else none
  pluginFileName := fun commandName => "tkn-" ++ commandName
  builtins := ["customrun", "version"]
  builtinExit := fun _ _ => 0
  spawn := fun request =>
    if request.executablePath = "/test/e2e/plugin/tkn-success" then .exited 0
    else if request.executablePath = "/test/e2e/plugin/tkn-failure" then
      (if request.arguments.head? = some "exit20" then .exited 20 else .exited 12)
    else .spawnError "no such file"
  signalExit := fun signal => 128 + signal
  dispatchFailure := 1

end Plugin

/-! ## Lemmas on the client and on sequences of deletes -/

namespace Tkn

section
variable (g : GroupVersionResource)

theorem Delete_tracker (c : DynamicClient) (ns name : String) :
    (c.Delete g ns name).2.tracker = c.tracker.filter (fun o => !o.hasKey g ns name) := by
  unfold DynamicClient.Delete
  split
  · rfl
  · rename_i h
    simp only
    symm
    rw [List.filter_eq_self]
    intro o ho
    simp only [List.any_eq_true, not_exists, not_and, Bool.not_eq_true] at h
    simp [h o ho]

theorem Delete_actions (c : DynamicClient) (ns name : String) :
    (c.Delete g ns name).2.actions = c.actions ++ [deleteAction g ns name] := by
  unfold DynamicClient.Delete deleteAction
  split <;> rfl

theorem Delete_fst (c : DynamicClient) (ns name : String) :
    (c.Delete g ns name).1 =
      if c.tracker.any (fun o => o.hasKey g ns name) then none else some (NewNotFound g name) := by
  unfold DynamicClient.Delete
  split <;> rfl

theorem existsIn_iff (cs : Clients) (ns name : String) :
    existsIn g cs ns name = cs.Dynamic.tracker.any (fun o => o.hasKey g ns name) := by
  unfold existsIn DynamicClient.Get
  cases h : cs.Dynamic.tracker.find? (fun o => o.hasKey g ns name) with
  | none =>
    simp only [Except.toBool]
    rw [List.find?_eq_none] at h
    symm
    rw [Bool.eq_false_iff]
    intro hc
    rw [List.any_eq_true] at hc
    obtain ⟨o, ho, hk⟩ := hc
    exact h o ho hk
  | some o =>
    simp only [Except.toBool]
    symm
    rw [List.any_eq_true]
    have hk := List.find?_some h
    exact ⟨o, List.mem_of_find?_eq_some h, hk⟩

theorem deleteCustomRun_fst (cs : Clients) (ns name : String) :
    (deleteCustomRun g cs ns name).1 =
      if existsIn g cs ns name then none
      else some (errorfFailedToDelete name (NewNotFound g name)) := by
  rw [existsIn_iff]
  unfold deleteCustomRun DynamicClient.Delete
  by_cases h : (cs.Dynamic.tracker.any fun o => o.hasKey g ns name) = true
  · simp only [h, if_true]
  · simp only [h, if_false]
    rfl

theorem deleteCustomRun_tracker (cs : Clients) (ns name : String) :
    (deleteCustomRun g cs ns name).2.Dynamic.tracker =
      cs.Dynamic.tracker.filter (fun o => !o.hasKey g ns name) := by
  rw [← Delete_tracker]
  unfold deleteCustomRun
  split <;> (rename_i heq; rw [heq])

theorem deleteCustomRun_actions (cs : Clients) (ns name : String) :
    (deleteCustomRun g cs ns name).2.Dynamic.actions =
      cs.Dynamic.actions ++ [deleteAction g ns name] := by
  rw [← Delete_actions]
  unfold deleteCustomRun
  split <;> (rename_i heq; rw [heq])


theorem existsIn_deleteCustomRun (cs : Clients) (ns n m : String) :
    existsIn g (deleteCustomRun g cs ns n).2 ns m = (existsIn g cs ns m && !decide (m = n)) := by
  rw [existsIn_iff, existsIn_iff, deleteCustomRun_tracker]
  induction cs.Dynamic.tracker with
  | nil => simp
  | cons o t ih =>
    by_cases hn : o.hasKey g ns n = true
    · rw [List.filter_cons_of_neg (by simp [hn]), ih]
      by_cases hm : o.hasKey g ns m = true
      · have : m = n := by
          simp only [Object.hasKey, Bool.and_eq_true, decide_eq_true_eq] at hn hm
          rw [← hm.2, ← hn.2]
        simp [this]
      · simp [List.any_cons, hm]
    · rw [List.filter_cons_of_pos (by simp [hn]), List.any_cons, List.any_cons, ih]
      by_cases hm : o.hasKey g ns m = true
      · have : m ≠ n := by
          intro h
          rw [h] at hm
          exact hn hm
        simp [hm, this]
      · simp [hm]

theorem afterDeletes_cons (cs : Clients) (ns n : String) (l : List String) :
    afterDeletes g cs ns (n :: l) = afterDeletes g (deleteCustomRun g cs ns n).2 ns l := rfl

theorem firstFailure_cons (cs : Clients) (ns n : String) (l : List String) :
    firstFailure g cs ns (n :: l) =
      match deleteCustomRun g cs ns n with
      | (some _, _) => some 0
      | (none, clients1) => (firstFailure g clients1 ns l).map (· + 1) := rfl

theorem afterDeletes_append (cs : Clients) (ns : String) (l r : List String) :
    afterDeletes g cs ns (l ++ r) = afterDeletes g (afterDeletes g cs ns l) ns r := by
  induction l generalizing cs with
  | nil => rfl
  | cons n l ih => rw [List.cons_append, afterDeletes_cons, afterDeletes_cons, ih]

theorem afterDeletes_tracker (cs : Clients) (ns : String) (names : List String) :
    (afterDeletes g cs ns names).Dynamic.tracker =
      cs.Dynamic.tracker.filter (fun o => !names.any (fun n => o.hasKey g ns n)) := by
  induction names generalizing cs with
  | nil => simp [afterDeletes]
  | cons n l ih =>
    simp only [afterDeletes, ih, deleteCustomRun_tracker, List.filter_filter, List.any_cons]
    congr 1
    funext o
    cases o.hasKey g ns n <;> simp

theorem afterDeletes_actions (cs : Clients) (ns : String) (names : List String) :
    (afterDeletes g cs ns names).Dynamic.actions =
      cs.Dynamic.actions ++ names.map (deleteAction g ns) := by
  induction names generalizing cs with
  | nil => simp [afterDeletes]
  | cons n l ih =>
    simp only [afterDeletes, ih, deleteCustomRun_actions, List.map_cons, List.append_assoc,
      List.singleton_append]

theorem existsIn_afterDeletes (cs : Clients) (ns m : String) (names : List String) :
    existsIn g (afterDeletes g cs ns names) ns m = (existsIn g cs ns m && !decide (m ∈ names)) := by
  induction names generalizing cs with
  | nil => simp [afterDeletes]
  | cons n l ih =>
    simp only [afterDeletes, ih, existsIn_deleteCustomRun, List.mem_cons]
    by_cases h1 : m = n <;> by_cases h2 : m ∈ l <;> simp [h1, h2]

theorem firstFailure_lt (cs : Clients) (ns : String) (names : List String) (i : Nat)
    (h : firstFailure g cs ns names = some i) : i < names.length := by
  induction names generalizing cs i with
  | nil => simp [firstFailure] at h
  | cons n l ih =>
    unfold firstFailure at h
    split at h
    · simp at h; simp [← h]
    · rename_i cs1 heq
      cases hf : firstFailure g cs1 ns l with
      | none => simp [hf] at h
      | some j =>
        simp [hf] at h
        have := ih cs1 j hf
        simp only [List.length_cons]
        omega

theorem firstFailure_append (cs : Clients) (ns : String) (l r : List String) :
    firstFailure g cs ns (l ++ r) =
      match firstFailure g cs ns l with
      | some i => some i
      | none => (firstFailure g (afterDeletes g cs ns l) ns r).map (· + l.length) := by
  induction l generalizing cs with
  | nil => simp [firstFailure, afterDeletes]
  | cons n l ih =>
    rw [List.cons_append, firstFailure_cons, firstFailure_cons, afterDeletes_cons]
    cases hd : deleteCustomRun g cs ns n with
    | mk e cs1 =>
      cases e with
      | some err => rfl
      | none =>
        simp only [ih]
        cases firstFailure g cs1 ns l with
        | some i => rfl
        | none =>
          simp only [Option.map_map, List.length_cons]
          congr 1

theorem firstFailure_none_iff (cs : Clients) (ns : String) (names : List String) :
    firstFailure g cs ns names = none ↔
      names.Nodup ∧ ∀ n ∈ names, existsIn g cs ns n = true := by
  induction names generalizing cs with
  | nil => simp [firstFailure]
  | cons n l ih =>
    have hfst := deleteCustomRun_fst g cs ns n
    unfold firstFailure
    cases hd : deleteCustomRun g cs ns n with
    | mk e cs1 =>
      have hcs1 : cs1 = (deleteCustomRun g cs ns n).2 := by rw [hd]
      rw [hd] at hfst
      simp only at hfst
      cases e with
      | some err =>
        simp only [false_iff, reduceCtorEq]
        intro ⟨_, h2⟩
        rw [h2 n (List.mem_cons_self _ _)] at hfst
        simp at hfst
      | none =>
        have hex : existsIn g cs ns n = true := by
          by_contra hc
          simp [hc] at hfst
        simp only [Option.map_eq_none', ih, List.nodup_cons, List.mem_cons, forall_eq_or_imp, hex,
          true_and, hcs1, existsIn_deleteCustomRun, Bool.and_eq_true, Bool.not_eq_true',
          decide_eq_false_iff_not]
        constructor
        · rintro ⟨hnd, hall⟩
          exact ⟨⟨fun hmem => (hall n hmem).2 rfl, hnd⟩, fun m hm => (hall m hm).1⟩
        · rintro ⟨⟨hn, hnd⟩, hall⟩
          exact ⟨hnd, fun m hm => ⟨hall m hm, fun h => hn (h ▸ hm)⟩⟩


theorem deleteCustomRuns_eq (s : Stream) (cs : Clients) (ns : String) (names log : List String) :
    deleteCustomRuns g s cs ns names log =
      match firstFailure g cs ns names with
      | none =>
        { ret := .returned none, s := s, clients := afterDeletes g cs ns names,
          log := log ++ names.map deletedMessage }
      | some i =>
        match Fprintf s.Err (failedLine (names.getD i "")
            (errorfFailedToDelete (names.getD i "") (NewNotFound g (names.getD i "")))) with
        | none =>
          { ret := .panicked, s := s, clients := afterDeletes g cs ns (names.take (i + 1)),
            log := log ++ (names.take i).map deletedMessage }
        | some w =>
          { ret := .returned (some (errorfFailedToDelete (names.getD i "")
              (NewNotFound g (names.getD i "")))),
            s := { s with Err := some w },
            clients := afterDeletes g cs ns (names.take (i + 1)),
            log := log ++ (names.take i).map deletedMessage } := by
  induction names generalizing cs log with
  | nil => simp [deleteCustomRuns, firstFailure, afterDeletes]
  | cons n l ih =>
    have hfst := deleteCustomRun_fst g cs ns n
    rw [firstFailure_cons]
    unfold deleteCustomRuns
    cases hd : deleteCustomRun g cs ns n with
    | mk e cs1 =>
      have hcs1 : cs1 = (deleteCustomRun g cs ns n).2 := by rw [hd]
      rw [hd] at hfst
      simp only at hfst
      cases e with
      | some err =>
        have herr : err = errorfFailedToDelete n (NewNotFound g n) := by
          split at hfst
          · simp at hfst
          · simpa using hfst
        subst herr
        simp only [List.getD_cons_zero, List.take_succ_cons, List.take_zero, List.map_nil,
          List.append_nil, afterDeletes_cons, afterDeletes, hcs1, zero_add]
      | none =>
        simp only [ih]
        cases hf : firstFailure g cs1 ns l with
        | none =>
          simp only [Option.map_none', afterDeletes_cons, ← hcs1, List.map_cons,
            List.append_assoc, List.singleton_append]
        | some i =>
          simp only [Option.map_some', List.getD_cons_succ, List.take_succ_cons,
            afterDeletes_cons, ← hcs1, List.map_cons, List.append_assoc, List.singleton_append]

theorem firstFailure_some_iff (cs : Clients) (ns : String) (names : List String) (i : Nat) :
    firstFailure g cs ns names = some i ↔
      i < names.length ∧ (names.take i).Nodup ∧
        (∀ n ∈ names.take i, existsIn g cs ns n = true) ∧
        (existsIn g cs ns (names.getD i "") = false ∨ names.getD i "" ∈ names.take i) := by
  constructor
  · intro h
    have hlt := firstFailure_lt g cs ns names i h
    have hsplit : names = names.take i ++ names.drop i := (List.take_append_drop i names).symm
    have happ := firstFailure_append g cs ns (names.take i) (names.drop i)
    rw [← hsplit, h] at happ
    cases hpre : firstFailure g cs ns (names.take i) with
    | some j =>
      rw [hpre] at happ
      simp only [Option.some.injEq] at happ
      have := firstFailure_lt g cs ns (names.take i) j hpre
      simp only [List.length_take] at this
      omega
    | none =>
      rw [hpre] at happ
      simp only at happ
      have hnone := (firstFailure_none_iff g cs ns (names.take i)).1 hpre
      refine ⟨hlt, hnone.1, hnone.2, ?_⟩
      have hdrop : names.drop i = names.getD i "" :: names.drop (i + 1) := by
        rw [List.drop_eq_getElem_cons hlt]
        congr 1
        simp [List.getD_eq_getElem?_getD, List.getElem?_eq_getElem hlt]
      generalize names.getD i "" = x at hdrop ⊢
      rw [hdrop, firstFailure_cons] at happ
      have hfst := deleteCustomRun_fst g (afterDeletes g cs ns (names.take i)) ns x
      cases hd : deleteCustomRun g (afterDeletes g cs ns (names.take i)) ns x with
      | mk e cs1 =>
        rw [hd] at happ hfst
        cases e with
        | none =>
          simp only [Option.map_map] at happ
          cases hq : firstFailure g cs1 ns (names.drop (i + 1)) with
          | none => simp [hq] at happ
          | some k =>
            simp only [hq, Option.map_some', Function.comp_apply, Option.some.injEq,
              List.length_take] at happ
            omega
        | some err =>
          simp only at hfst
          rw [existsIn_afterDeletes] at hfst
          by_cases hex : existsIn g cs ns x = true
          · right
            by_contra hmem
            simp [hex, hmem] at hfst
          · left
            simpa using hex
  · rintro ⟨hlt, hnd, hall, hlast⟩
    have hsplit : names = names.take i ++ names.drop i := (List.take_append_drop i names).symm
    have hpre := (firstFailure_none_iff g cs ns (names.take i)).2 ⟨hnd, hall⟩
    have hdrop : names.drop i = names.getD i "" :: names.drop (i + 1) := by
      rw [List.drop_eq_getElem_cons hlt]
      congr 1
      simp [List.getD_eq_getElem?_getD, List.getElem?_eq_getElem hlt]
    generalize names.getD i "" = x at hdrop hlast
    rw [hsplit, firstFailure_append, hpre]
    simp only
    rw [hdrop, firstFailure_cons]
    have hfst := deleteCustomRun_fst g (afterDeletes g cs ns (names.take i)) ns x
    rw [existsIn_afterDeletes] at hfst
    have hcond : (existsIn g cs ns x && !decide (x ∈ names.take i)) = false := by
      rcases hlast with h | h
      · simp [h]
      · simp [h]
    rw [hcond] at hfst
    simp only [Bool.false_eq_true, if_false] at hfst
    cases hd : deleteCustomRun g (afterDeletes g cs ns (names.take i)) ns x with
    | mk e cs1 =>
      rw [hd] at hfst
      simp only at hfst
      subst hfst
      simp only [Option.map_some', zero_add, List.length_take, Option.some.injEq]
      omega


theorem Get_of_not_existsIn (cs : Clients) (ns name : String)
    (h : existsIn g cs ns name = false) :
    (cs.Dynamic.Get g ns name).1 = .error (NewNotFound g name) := by
  unfold existsIn at h
  unfold DynamicClient.Get at h ⊢
  cases hf : cs.Dynamic.tracker.find? (fun o => o.hasKey g ns name) with
  | none => rfl
  | some o => simp [hf, Except.toBool] at h

theorem IsNotFound_NewNotFound (name : String) : IsNotFound (some (NewNotFound g name)) = true := by
  simp [IsNotFound, ReasonForError, ReasonForErrorAux, NewNotFound]

theorem IsNotFound_errorfFailedToDelete (crName name : String) :
    IsNotFound (some (errorfFailedToDelete crName (NewNotFound g name))) = true := by
  simp [IsNotFound, ReasonForError, ReasonForErrorAux, NewNotFound, errorfFailedToDelete]

theorem find?_filter_of_imp {α : Type} (p q : α → Bool) (l : List α)
    (h : ∀ a, p a = true → q a = true) : (l.filter q).find? p = l.find? p := by
  induction l with
  | nil => rfl
  | cons a t ih =>
    by_cases hp : p a = true
    · rw [List.filter_cons_of_pos (h a hp), List.find?_cons_of_pos _ hp,
        List.find?_cons_of_pos _ hp]
    · by_cases hq : q a = true
      · rw [List.filter_cons_of_pos hq, List.find?_cons_of_neg _ hp,
          List.find?_cons_of_neg _ hp, ih]
      · rw [List.filter_cons_of_neg hq, List.find?_cons_of_neg _ hp, ih]

theorem Get_filter_other (l : List Object) (acts acts2 : List Action) (ns : String) (names : List String)
    (gvr : GroupVersionResource) (ns2 name : String) (hns : ns2 ≠ ns) :
    (DynamicClient.Get ⟨l.filter (fun o => !names.any (fun n => o.hasKey g ns n)), acts2⟩ gvr ns2 name).1 =
      (DynamicClient.Get ⟨l, acts⟩ gvr ns2 name).1 := by
  unfold DynamicClient.Get
  simp only
  have hfind : (l.filter (fun o => !names.any (fun n => o.hasKey g ns n))).find?
      (fun o => o.hasKey gvr ns2 name) = l.find? (fun o => o.hasKey gvr ns2 name) := by
    apply find?_filter_of_imp
    intro o hk
    simp only [Bool.not_eq_true', List.any_eq_false]
    intro n _ hc
    simp only [Object.hasKey, Bool.and_eq_true, decide_eq_true_eq] at hk hc
    exact hns (hk.1.2.symm.trans hc.1.2)
  rw [hfind]
  cases l.find? (fun o => o.hasKey gvr ns2 name) <;> rfl

theorem run_clients (s : Stream) (cs : Clients) (ns : String) (names log : List String) :
    (deleteCustomRuns g s cs ns names log).clients =
      match firstFailure g cs ns names with
      | none => afterDeletes g cs ns names
      | some i => afterDeletes g cs ns (names.take (i + 1)) := by
  rw [deleteCustomRuns_eq]
  cases firstFailure g cs ns names with
  | none => rfl
  | some i =>
    simp only
    cases Fprintf s.Err _ <;> rfl

theorem run_clients_exists (s : Stream) (cs : Clients) (ns : String) (names log : List String) :
    ∃ done : List String,
      (deleteCustomRuns g s cs ns names log).clients = afterDeletes g cs ns done := by
  rw [run_clients]
  cases firstFailure g cs ns names with
  | none => exact ⟨names, rfl⟩
  | some i => exact ⟨names.take (i + 1), rfl⟩

theorem error_at_first_failure (cs : Clients) (ns : String) (names : List String) (i : Nat)
    (hi : firstFailure g cs ns names = some i) :
    (deleteCustomRun g (afterDeletes g cs ns (names.take i)) ns (names.getD i "")).1 =
      some (errorfFailedToDelete (names.getD i "") (NewNotFound g (names.getD i ""))) := by
  obtain ⟨_, _, _, hlast⟩ := (firstFailure_some_iff g cs ns names i).1 hi
  generalize names.getD i "" = x at hlast ⊢
  rw [deleteCustomRun_fst, existsIn_afterDeletes]
  have hcond : (existsIn g cs ns x && !decide (x ∈ names.take i)) = false := by
    rcases hlast with h | h
    · simp [h]
    · simp [h]
  rw [hcond]
  rfl

theorem run_ret_of_writer (s : Stream) (cs : Clients) (ns : String) (names log : List String)
    (i : Nat) (w : Writer) (hi : firstFailure g cs ns names = some i) (hw : s.Err = some w) :
    deleteCustomRuns g s cs ns names log =
      { ret := .returned (some (errorfFailedToDelete (names.getD i "")
          (NewNotFound g (names.getD i "")))),
        s := { s with Err := some ⟨w.written ++ [failedLine (names.getD i "")
          (errorfFailedToDelete (names.getD i "") (NewNotFound g (names.getD i "")))]⟩ },
        clients := afterDeletes g cs ns (names.take (i + 1)),
        log := log ++ (names.take i).map deletedMessage } := by
  rw [deleteCustomRuns_eq, hi]
  simp only [hw, Fprintf, Option.map_some']

theorem run_of_nil_writer (s : Stream) (cs : Clients) (ns : String) (names log : List String)
    (i : Nat) (hi : firstFailure g cs ns names = some i) (hw : s.Err = none) :
    deleteCustomRuns g s cs ns names log =
      { ret := .panicked, s := s, clients := afterDeletes g cs ns (names.take (i + 1)),
        log := log ++ (names.take i).map deletedMessage } := by
  rw [deleteCustomRuns_eq, hi]
  simp only [hw, Fprintf, Option.map_none']

theorem run_of_no_failure (s : Stream) (cs : Clients) (ns : String) (names log : List String)
    (hi : firstFailure g cs ns names = none) :
    deleteCustomRuns g s cs ns names log =
      { ret := .returned none, s := s, clients := afterDeletes g cs ns names,
        log := log ++ names.map deletedMessage } := by
  rw [deleteCustomRuns_eq, hi]

end

/-- Claim C1 (amended): if the delete of the name at index `i` is the first one that fails,
then `deleteCustomRuns` makes exactly the delete calls for the names at indices `0..i`, in
order, and none for a later index, and every object not named at an index up to `i` is
still in the tracker afterwards; when `s.Err` is a non-nil writer the call returns a non-nil
error, and when `s.Err` is nil it panics instead of returning. -/
theorem deleteCustomRuns_fail_fast (g : GroupVersionResource) (s : Stream) (clients : Clients)
    (ns : String) (crNames log : List String) (i : Nat)
    (hi : firstFailure g clients ns crNames = some i) :
    (s.Err ≠ none →
      ∃ err, (deleteCustomRuns g s clients ns crNames log).ret = .returned (some err)) ∧
    (s.Err = none → (deleteCustomRuns g s clients ns crNames log).ret = .panicked) ∧
    (deleteCustomRuns g s clients ns crNames log).clients.Dynamic.actions =
      clients.Dynamic.actions ++ (crNames.take (i + 1)).map (deleteAction g ns) ∧
    (∀ o ∈ clients.Dynamic.tracker, o.name ∉ crNames.take (i + 1) →
      o ∈ (deleteCustomRuns g s clients ns crNames log).clients.Dynamic.tracker) := by
  have hc := run_clients g s clients ns crNames log
  have he := deleteCustomRuns_eq g s clients ns crNames log
  rw [hi] at hc he
  simp only at hc he
  refine ⟨?_, ?_, ?_, ?_⟩
  · intro hs
    obtain ⟨w, hw⟩ := Option.ne_none_iff_exists'.1 hs
    rw [he, hw]
    exact ⟨_, rfl⟩
  · intro hs
    rw [he, hs]
    rfl
  · rw [hc, afterDeletes_actions]
  · intro o ho hname
    rw [hc, afterDeletes_tracker, List.mem_filter]
    refine ⟨ho, ?_⟩
    simp only [Bool.not_eq_true', List.any_eq_false]
    intro n hn hk
    simp only [Object.hasKey, Bool.and_eq_true, decide_eq_true_eq] at hk
    exact hname (hk.2 ▸ hn)

/-- Witness for C1: in the fixture with `customrun-1` and `customrun-2` in `foo`, deleting
`non-existent-customrun` and then `customrun-2` fails at index 0. -/
theorem deleteCustomRuns_fail_fast_witness :
    firstFailure fixtureResource fooClients "foo" ["non-existent-customrun", "customrun-2"] = some 0 ∧
    (deleteCustomRuns fixtureResource freshStream fooClients "foo"
        ["non-existent-customrun", "customrun-2"] []).clients.Dynamic.actions =
      [deleteAction fixtureResource "foo" "non-existent-customrun"] ∧
    fixtureObject "foo" "customrun-2" ∈
      (deleteCustomRuns fixtureResource freshStream fooClients "foo"
        ["non-existent-customrun", "customrun-2"] []).clients.Dynamic.tracker :=
  have h := deleteCustomRuns_fail_fast fixtureResource freshStream fooClients "foo"
    ["non-existent-customrun", "customrun-2"] [] 0 (by decide)
  ⟨by decide, h.2.2.1, h.2.2.2 (fixtureObject "foo" "customrun-2") (by decide) (by decide)⟩

/-- Counterexample to C1 as stated: with the stream `&cli.Stream{}` of the tests, whose
`Err` is nil, the delete at index 0 fails and the call panics; no error is returned. -/
theorem fail_fast_panics_on_nil_writer :
    firstFailure fixtureResource fooClients "foo" ["non-existent-customrun"] = some 0 ∧
    ¬ ∃ err, (deleteCustomRuns fixtureResource emptyStream fooClients "foo"
        ["non-existent-customrun"] []).ret = .returned (some err) := by
  refine ⟨by decide, ?_⟩
  have h : (deleteCustomRuns fixtureResource emptyStream fooClients "foo"
      ["non-existent-customrun"] []).ret = .panicked := by decide
  rw [h]
  simp


/-- Claim C2: for pairwise distinct names that all exist in the namespace, `deleteCustomRuns`
returns nil, and afterwards a `Get` of each listed name in the namespace fails with a
not-found error. -/
theorem deleteCustomRuns_deletes_all (g : GroupVersionResource) (s : Stream) (clients : Clients)
    (ns : String) (crNames log : List String)
    (hnd : crNames.Nodup) (hex : ∀ n ∈ crNames, existsIn g clients ns n = true) :
    (deleteCustomRuns g s clients ns crNames log).ret = .returned none ∧
    ∀ n ∈ crNames, ∃ e,
      ((deleteCustomRuns g s clients ns crNames log).clients.Dynamic.Get g ns n).1 = .error e ∧
      IsNotFound (some e) = true := by
  have hff := (firstFailure_none_iff g clients ns crNames).2 ⟨hnd, hex⟩
  have hc := run_clients g s clients ns crNames log
  have he := deleteCustomRuns_eq g s clients ns crNames log
  rw [hff] at hc he
  simp only at hc he
  refine ⟨by rw [he], ?_⟩
  intro n hn
  refine ⟨NewNotFound g n, ?_, IsNotFound_NewNotFound g n⟩
  apply Get_of_not_existsIn
  rw [hc, existsIn_afterDeletes]
  simp [hn]

/-- Witness for C2: `TestDeleteMultipleCustomRuns`, names `customrun-1` and `customrun-2`
in the namespace `foo`, with the stream `&cli.Stream{}`. -/
theorem deleteCustomRuns_deletes_all_witness :
    (deleteCustomRuns fixtureResource emptyStream fooClients "foo"
        ["customrun-1", "customrun-2"] []).ret = .returned none ∧
    ∀ n ∈ ["customrun-1", "customrun-2"], ∃ e,
      ((deleteCustomRuns fixtureResource emptyStream fooClients "foo"
        ["customrun-1", "customrun-2"] []).clients.Dynamic.Get fixtureResource "foo" n).1 = .error e ∧
      IsNotFound (some e) = true :=
  deleteCustomRuns_deletes_all fixtureResource emptyStream fooClients "foo"
    ["customrun-1", "customrun-2"] [] (by decide) (by decide)

/-- Claim C3: `deleteCustomRuns` in namespace `ns` leaves every object of another namespace
in the tracker, unchanged, however the call ends and whether or not its name is in the
list: each such object is still a member, and a `Get` in another namespace answers what it
answered before. -/
theorem deleteCustomRuns_namespace_scoped (g : GroupVersionResource) (s : Stream)
    (clients : Clients) (ns : String) (crNames log : List String) :
    (∀ o ∈ clients.Dynamic.tracker, o.ns ≠ ns →
      o ∈ (deleteCustomRuns g s clients ns crNames log).clients.Dynamic.tracker) ∧
    (∀ (gvr : GroupVersionResource) (ns2 name : String), ns2 ≠ ns →
      ((deleteCustomRuns g s clients ns crNames log).clients.Dynamic.Get gvr ns2 name).1 =
        (clients.Dynamic.Get gvr ns2 name).1) := by
  obtain ⟨done, hc⟩ := run_clients_exists g s clients ns crNames log
  constructor
  · intro o ho hns
    rw [hc, afterDeletes_tracker, List.mem_filter]
    refine ⟨ho, ?_⟩
    simp only [Bool.not_eq_true', List.any_eq_false]
    intro n _ hk
    simp only [Object.hasKey, Bool.and_eq_true, decide_eq_true_eq] at hk
    exact hns hk.1.2
  · intro gvr ns2 name hns
    have ht := afterDeletes_tracker g clients ns done
    rw [hc]
    have := Get_filter_other g clients.Dynamic.tracker clients.Dynamic.actions
      (afterDeletes g clients ns done).Dynamic.actions ns done gvr ns2 name hns
    rw [← ht] at this
    exact this

/-- Witness for C3: `TestNamespaceSpecificDeletion`; deleting `customrun-1` and
`customrun-2` in `foo` leaves `customrun-2` of `bar` in place and retrievable. -/
theorem deleteCustomRuns_namespace_scoped_witness :
    fixtureObject "bar" "customrun-2" ∈
      (deleteCustomRuns fixtureResource emptyStream fooBarClients "foo"
        ["customrun-1", "customrun-2"] []).clients.Dynamic.tracker ∧
    ((deleteCustomRuns fixtureResource emptyStream fooBarClients "foo"
        ["customrun-1", "customrun-2"] []).clients.Dynamic.Get fixtureResource "bar" "customrun-2").1 =
      .ok (fixtureObject "bar" "customrun-2") :=
  have h := deleteCustomRuns_namespace_scoped fixtureResource emptyStream fooBarClients "foo"
    ["customrun-1", "customrun-2"] []
  ⟨h.1 (fixtureObject "bar" "customrun-2") (by decide) (by decide),
   (h.2 fixtureResource "bar" "customrun-2" (by decide)).trans rfl⟩

/-- Claim C4: for a name that exists in the namespace, `deleteCustomRun` returns nil,
afterwards a `Get` of that name in the namespace returns an error, and every object other
than the one stored under that name in that namespace is still in the tracker. -/
theorem deleteCustomRun_existing (g : GroupVersionResource) (cs : Clients) (ns crName : String)
    (hex : existsIn g cs ns crName = true) :
    (deleteCustomRun g cs ns crName).1 = none ∧
    (∃ e, ((deleteCustomRun g cs ns crName).2.Dynamic.Get g ns crName).1 = .error e) ∧
    (∀ o ∈ cs.Dynamic.tracker, o.hasKey g ns crName = false →
      o ∈ (deleteCustomRun g cs ns crName).2.Dynamic.tracker) := by
  refine ⟨?_, ?_, ?_⟩
  · rw [deleteCustomRun_fst, hex]
    rfl
  · refine ⟨NewNotFound g crName, ?_⟩
    apply Get_of_not_existsIn
    rw [existsIn_deleteCustomRun]
    simp
  · intro o ho hk
    rw [deleteCustomRun_tracker, List.mem_filter]
    exact ⟨ho, by simp [hk]⟩

/-- Witness for C4: `TestDeleteSingleCustomRun`, deleting `customrun-1` in `foo`;
`customrun-2` is still present. -/
theorem deleteCustomRun_existing_witness :
    existsIn fixtureResource fooClients "foo" "customrun-1" = true ∧
    (deleteCustomRun fixtureResource fooClients "foo" "customrun-1").1 = none ∧
    fixtureObject "foo" "customrun-2" ∈
      (deleteCustomRun fixtureResource fooClients "foo" "customrun-1").2.Dynamic.tracker :=
  have h := deleteCustomRun_existing fixtureResource fooClients "foo" "customrun-1" (by decide)
  ⟨by decide, h.1, h.2.2 (fixtureObject "foo" "customrun-2") (by decide) (by decide)⟩

/-- Claim C5: for a name that does not exist in the namespace, the client's delete fails with
an error `e`, and `deleteCustomRun` returns the non-nil error that wraps `e`, has the text
"failed to delete CustomRun <name>: " followed by the text of `e`, and leaves the objects
of the tracker unchanged. -/
theorem deleteCustomRun_missing (g : GroupVersionResource) (cs : Clients) (ns crName : String)
    (hex : existsIn g cs ns crName = false) :
    ∃ e err, (cs.Dynamic.Delete g ns crName).1 = some e ∧
      (deleteCustomRun g cs ns crName).1 = some err ∧
      err.Unwrap = some e ∧
      err.Error = "failed to delete CustomRun " ++ crName ++ ": " ++ e.Error ∧
      (deleteCustomRun g cs ns crName).2.Dynamic.tracker = cs.Dynamic.tracker := by
  have hany := existsIn_iff g cs ns crName
  rw [hex] at hany
  refine ⟨NewNotFound g crName, errorfFailedToDelete crName (NewNotFound g crName), ?_, ?_, rfl,
    rfl, ?_⟩
  · rw [Delete_fst, ← hany]
    rfl
  · rw [deleteCustomRun_fst, hex]
    rfl
  · rw [deleteCustomRun_tracker, List.filter_eq_self]
    intro o ho
    have := List.any_eq_false.1 hany.symm o ho
    simpa using this

/-- Witness for C5: `TestDeleteSingleCustomRun`, name `non-existent-customrun` in `foo`. -/
theorem deleteCustomRun_missing_witness :
    existsIn fixtureResource fooClients "foo" "non-existent-customrun" = false ∧
    ∃ e err, (fooClients.Dynamic.Delete fixtureResource "foo" "non-existent-customrun").1 = some e ∧
      (deleteCustomRun fixtureResource fooClients "foo" "non-existent-customrun").1 = some err ∧
      err.Unwrap = some e ∧
      err.Error = "failed to delete CustomRun " ++ "non-existent-customrun" ++ ": " ++ e.Error ∧
      (deleteCustomRun fixtureResource fooClients "foo" "non-existent-customrun").2.Dynamic.tracker =
        fooClients.Dynamic.tracker :=
  ⟨by decide,
   deleteCustomRun_missing fixtureResource fooClients "foo" "non-existent-customrun" (by decide)⟩


/-- Claim C8 (amended): if the first failing delete is at index `i`, then the deletes were
made in argument order up to index `i`, every name at an index below `i` existed and is no
longer in the namespace when the call ends (nothing is rolled back), and the error of the
name at index `i`, the one `deleteCustomRun` gives for it on the clients left by the
deletes before, is what is returned when `s.Err` is a non-nil writer; when `s.Err` is nil
the call panics instead of returning. -/
theorem deleteCustomRuns_not_atomic (g : GroupVersionResource) (s : Stream) (clients : Clients)
    (ns : String) (crNames log : List String) (i : Nat)
    (hi : firstFailure g clients ns crNames = some i) :
    i < crNames.length ∧
    (∀ n ∈ crNames.take i, existsIn g clients ns n = true ∧
      existsIn g (deleteCustomRuns g s clients ns crNames log).clients ns n = false) ∧
    (deleteCustomRuns g s clients ns crNames log).clients.Dynamic.actions =
      clients.Dynamic.actions ++ (crNames.take (i + 1)).map (deleteAction g ns) ∧
    (deleteCustomRun g (afterDeletes g clients ns (crNames.take i)) ns (crNames.getD i "")).1 =
      some (errorfFailedToDelete (crNames.getD i "") (NewNotFound g (crNames.getD i ""))) ∧
    (s.Err ≠ none → (deleteCustomRuns g s clients ns crNames log).ret =
      .returned (deleteCustomRun g (afterDeletes g clients ns (crNames.take i)) ns
        (crNames.getD i "")).1) ∧
    (s.Err = none → (deleteCustomRuns g s clients ns crNames log).ret = .panicked) := by
  have hc := run_clients g s clients ns crNames log
  rw [hi] at hc
  simp only at hc
  obtain ⟨hlt, _, hall, _⟩ := (firstFailure_some_iff g clients ns crNames i).1 hi
  refine ⟨hlt, ?_, ?_, error_at_first_failure g clients ns crNames i hi, ?_, ?_⟩
  · intro n hn
    refine ⟨hall n hn, ?_⟩
    rw [hc, existsIn_afterDeletes]
    have hmem : n ∈ crNames.take (i + 1) :=
      (List.take_subset_take_left crNames (Nat.le_succ i)) hn
    simp [hmem]
  · rw [hc, afterDeletes_actions]
  · intro hs
    obtain ⟨w, hw⟩ := Option.ne_none_iff_exists'.1 hs
    rw [run_ret_of_writer g s clients ns crNames log i w hi hw,
      error_at_first_failure g clients ns crNames i hi]
  · intro hs
    rw [run_of_nil_writer g s clients ns crNames log i hi hs]

/-- Witness for C8: deleting `customrun-1` and then `non-existent-customrun` in `foo` fails
at index 1, after `customrun-1` has been deleted. -/
theorem deleteCustomRuns_not_atomic_witness :
    firstFailure fixtureResource fooClients "foo" ["customrun-1", "non-existent-customrun"] = some 1 ∧
    existsIn fixtureResource (deleteCustomRuns fixtureResource freshStream fooClients "foo"
      ["customrun-1", "non-existent-customrun"] []).clients "foo" "customrun-1" = false ∧
    (deleteCustomRuns fixtureResource freshStream fooClients "foo"
      ["customrun-1", "non-existent-customrun"] []).ret =
      .returned (some (errorfFailedToDelete "non-existent-customrun"
        (NewNotFound fixtureResource "non-existent-customrun"))) :=
  have h := deleteCustomRuns_not_atomic fixtureResource freshStream fooClients "foo"
    ["customrun-1", "non-existent-customrun"] [] 1 (by decide)
  ⟨by decide, (h.2.1 "customrun-1" (by decide)).2, (h.2.2.2.2.1 (by decide)).trans (by decide)⟩

/-- Counterexample to C8 as stated: with the stream `&cli.Stream{}` of the tests the first
failing delete is at index 1 and no error is returned, the call panics. -/
theorem not_atomic_panics_on_nil_writer :
    firstFailure fixtureResource fooClients "foo" ["customrun-1", "non-existent-customrun"] = some 1 ∧
    (deleteCustomRuns fixtureResource emptyStream fooClients "foo"
      ["customrun-1", "non-existent-customrun"] []).ret = .panicked ∧
    ¬ ∃ err, (deleteCustomRuns fixtureResource emptyStream fooClients "foo"
      ["customrun-1", "non-existent-customrun"] []).ret = .returned err := by
  have h : (deleteCustomRuns fixtureResource emptyStream fooClients "foo"
      ["customrun-1", "non-existent-customrun"] []).ret = .panicked := by decide
  refine ⟨by decide, h, ?_⟩
  rw [h]
  simp


/-- Claim C9 (amended): `deleteCustomRuns` changes what has been written to `s.Err` if and
only if it returns a non-nil error. When every delete succeeds the stream is left as it
was and nil is returned, also for a stream whose `Err` is nil, which is then never written
to. When the first failing delete is at index `i` and `s.Err` is a non-nil writer, exactly
one text is appended to it, "failed to delete CustomRun <name>: <err>\n" for the name at
index `i`, where `<err>` is the text of the error returned, itself
"failed to delete CustomRun <name>: " followed by the text of the client's error; when
`s.Err` is nil a failing delete makes the call panic, and nothing is written. -/
theorem deleteCustomRuns_err_stream (g : GroupVersionResource) (s : Stream) (clients : Clients)
    (ns : String) (crNames log : List String) :
    ((deleteCustomRuns g s clients ns crNames log).s.Err ≠ s.Err ↔
      ∃ err, (deleteCustomRuns g s clients ns crNames log).ret = .returned (some err)) ∧
    (firstFailure g clients ns crNames = none →
      (deleteCustomRuns g s clients ns crNames log).s = s ∧
      (deleteCustomRuns g s clients ns crNames log).ret = .returned none) ∧
    (∀ i, firstFailure g clients ns crNames = some i →
      (∀ w, s.Err = some w →
        (deleteCustomRuns g s clients ns crNames log).s =
          { s with Err := some ⟨w.written ++
            ["failed to delete CustomRun " ++ crNames.getD i "" ++ ": " ++
              (errorfFailedToDelete (crNames.getD i "") (NewNotFound g (crNames.getD i ""))).Error
              ++ "\n"]⟩ } ∧
        (errorfFailedToDelete (crNames.getD i "") (NewNotFound g (crNames.getD i ""))).Error =
          "failed to delete CustomRun " ++ crNames.getD i "" ++ ": " ++
            (NewNotFound g (crNames.getD i "")).Error ∧
        (deleteCustomRuns g s clients ns crNames log).ret =
          .returned (some (errorfFailedToDelete (crNames.getD i "")
            (NewNotFound g (crNames.getD i ""))))) ∧
      (s.Err = none →
        (deleteCustomRuns g s clients ns crNames log).s = s ∧
        (deleteCustomRuns g s clients ns crNames log).ret = .panicked)) := by
  have hfail : ∀ i, firstFailure g clients ns crNames = some i →
      (∀ w, s.Err = some w →
        (deleteCustomRuns g s clients ns crNames log).s =
          { s with Err := some ⟨w.written ++
            ["failed to delete CustomRun " ++ crNames.getD i "" ++ ": " ++
              (errorfFailedToDelete (crNames.getD i "") (NewNotFound g (crNames.getD i ""))).Error
              ++ "\n"]⟩ } ∧
        (errorfFailedToDelete (crNames.getD i "") (NewNotFound g (crNames.getD i ""))).Error =
          "failed to delete CustomRun " ++ crNames.getD i "" ++ ": " ++
            (NewNotFound g (crNames.getD i "")).Error ∧
        (deleteCustomRuns g s clients ns crNames log).ret =
          .returned (some (errorfFailedToDelete (crNames.getD i "")
            (NewNotFound g (crNames.getD i ""))))) ∧
      (s.Err = none →
        (deleteCustomRuns g s clients ns crNames log).s = s ∧
        (deleteCustomRuns g s clients ns crNames log).ret = .panicked) := by
    intro i hi
    constructor
    · intro w hw
      rw [run_ret_of_writer g s clients ns crNames log i w hi hw]
      exact ⟨rfl, rfl, rfl⟩
    · intro hs
      rw [run_of_nil_writer g s clients ns crNames log i hi hs]
      exact ⟨rfl, rfl⟩
  have hok : firstFailure g clients ns crNames = none →
      (deleteCustomRuns g s clients ns crNames log).s = s ∧
      (deleteCustomRuns g s clients ns crNames log).ret = .returned none := by
    intro hi
    rw [run_of_no_failure g s clients ns crNames log hi]
    exact ⟨rfl, rfl⟩
  refine ⟨?_, hok, hfail⟩
  cases hff : firstFailure g clients ns crNames with
  | none =>
    obtain ⟨h1, h2⟩ := hok hff
    rw [h1, h2]
    simp
  | some i =>
    cases hs : s.Err with
    | none =>
      obtain ⟨h1, h2⟩ := (hfail i hff).2 hs
      rw [h1, h2, hs]
      simp
    | some w =>
      obtain ⟨h1, _, h3⟩ := (hfail i hff).1 w hs
      rw [h1, h3]
      simp only [ne_eq, Option.some.injEq, Outcome.returned.injEq, exists_eq', iff_true]
      intro h
      have hlen := congrArg (fun x : Writer => x.written.length) h
      simp at hlen

/-- Witness for C9: with `customrun-1` then `non-existent-customrun` on a fresh stream, one
line is written for the name at index 1, carrying the prefix twice. -/
theorem deleteCustomRuns_err_stream_witness :
    firstFailure fixtureResource fooClients "foo" ["customrun-1", "non-existent-customrun"] = some 1 ∧
    (deleteCustomRuns fixtureResource freshStream fooClients "foo"
      ["customrun-1", "non-existent-customrun"] []).s.Err =
      some ⟨["failed to delete CustomRun non-existent-customrun: failed to delete CustomRun non-existent-customrun: customruns.tekton.dev \"non-existent-customrun\" not found\n"]⟩ ∧
    (deleteCustomRuns fixtureResource emptyStream fooClients "foo"
      ["customrun-1", "customrun-2"] []).s = emptyStream :=
  have h := deleteCustomRuns_err_stream fixtureResource freshStream fooClients "foo"
    ["customrun-1", "non-existent-customrun"] []
  have h2 := deleteCustomRuns_err_stream fixtureResource emptyStream fooClients "foo"
    ["customrun-1", "customrun-2"] []
  ⟨by decide,
   (congrArg Stream.Err ((h.2.2 1 (by decide)).1 ⟨[]⟩ rfl).1).trans rfl,
   (h2.2.1 (by decide)).1⟩

/-- Counterexample to C9 as stated: with the stream `&cli.Stream{}` of the tests a failing
delete writes no line at all; the call panics on the nil writer. -/
theorem err_stream_unwritten_on_nil_writer :
    firstFailure fixtureResource fooClients "foo" ["non-existent-customrun"] = some 0 ∧
    (deleteCustomRuns fixtureResource emptyStream fooClients "foo"
      ["non-existent-customrun"] []).s.Err = none ∧
    (deleteCustomRuns fixtureResource emptyStream fooClients "foo"
      ["non-existent-customrun"] []).ret = .panicked := by
  decide

/-- Claim C10 (amended): let `n` exist in the namespace and let the list be
`pre ++ n :: mid ++ n :: post`, where the names up to the second occurrence of `n` all
exist in the namespace and, the second occurrence apart, are pairwise distinct. Then the
first failing delete is the one at the second occurrence of `n`; `n` is deleted at its first
occurrence; the delete calls made are those for `pre`, `n`, `mid`, `n`, in order, and none
for `post`; when `s.Err` is a non-nil writer a non-nil not-found error is returned, and when
`s.Err` is nil the call panics instead. -/
theorem deleteCustomRuns_repeated_name (g : GroupVersionResource) (s : Stream) (clients : Clients)
    (ns n : String) (pre mid post log : List String)
    (hn : existsIn g clients ns n = true)
    (hall : ∀ m ∈ pre ++ mid, existsIn g clients ns m = true)
    (hnd : (pre ++ n :: mid).Nodup) :
    firstFailure g clients ns (pre ++ n :: (mid ++ n :: post)) = some (pre.length + 1 + mid.length) ∧
    existsIn g (afterDeletes g clients ns pre) ns n = true ∧
    existsIn g (afterDeletes g clients ns (pre ++ [n])) ns n = false ∧
    (deleteCustomRuns g s clients ns (pre ++ n :: (mid ++ n :: post)) log).clients.Dynamic.actions =
      clients.Dynamic.actions ++ (pre ++ n :: (mid ++ [n])).map (deleteAction g ns) ∧
    (s.Err ≠ none → ∃ err,
      (deleteCustomRuns g s clients ns (pre ++ n :: (mid ++ n :: post)) log).ret =
        .returned (some err) ∧ IsNotFound (some err) = true) ∧
    (s.Err = none →
      (deleteCustomRuns g s clients ns (pre ++ n :: (mid ++ n :: post)) log).ret = .panicked) := by
  have hlen : (pre ++ n :: mid).length = pre.length + 1 + mid.length := by
    simp only [List.length_append, List.length_cons]
    omega
  have hnames : pre ++ n :: (mid ++ n :: post) = (pre ++ n :: mid) ++ n :: post := by simp
  have htake : (pre ++ n :: (mid ++ n :: post)).take (pre.length + 1 + mid.length) =
      pre ++ n :: mid := by
    rw [hnames, ← hlen, List.take_left']
    rfl
  have htake1 : (pre ++ n :: (mid ++ n :: post)).take (pre.length + 1 + mid.length + 1) =
      pre ++ n :: (mid ++ [n]) := by
    have : pre ++ n :: (mid ++ n :: post) = (pre ++ n :: (mid ++ [n])) ++ post := by simp
    rw [this, List.take_left']
    simp only [List.length_append, List.length_cons, List.length_nil]
    omega
  have hget : (pre ++ n :: (mid ++ n :: post)).getD (pre.length + 1 + mid.length) "" = n := by
    rw [hnames, ← hlen, List.getD_eq_getElem?_getD, List.getElem?_append_right (le_refl _)]
    simp
  have hmem : n ∈ pre ++ n :: mid := by simp
  have hnpre : n ∉ pre := by
    intro h
    rw [List.nodup_append] at hnd
    exact hnd.2.2 h (List.mem_cons_self _ _)
  have hi : firstFailure g clients ns (pre ++ n :: (mid ++ n :: post)) =
      some (pre.length + 1 + mid.length) := by
    rw [firstFailure_some_iff, htake, hget]
    refine ⟨?_, hnd, ?_, Or.inr hmem⟩
    · simp only [List.length_append, List.length_cons]
      omega
    · intro m hm
      rcases List.mem_append.1 hm with h | h
      · exact hall m (List.mem_append_left _ h)
      · rcases List.mem_cons.1 h with h | h
        · rw [h]; exact hn
        · exact hall m (List.mem_append_right _ h)
  have hc := run_clients g s clients ns (pre ++ n :: (mid ++ n :: post)) log
  rw [hi] at hc
  simp only at hc
  refine ⟨hi, ?_, ?_, ?_, ?_, ?_⟩
  · rw [existsIn_afterDeletes, hn]
    simp [hnpre]
  · rw [existsIn_afterDeletes]
    simp
  · rw [hc, afterDeletes_actions, htake1]
  · intro hs
    obtain ⟨w, hw⟩ := Option.ne_none_iff_exists'.1 hs
    rw [run_ret_of_writer g s clients ns _ log _ w hi hw]
    exact ⟨_, rfl, IsNotFound_errorfFailedToDelete g _ _⟩
  · intro hs
    rw [run_of_nil_writer g s clients ns _ log _ hi hs]

/-- Witness for C10: `customrun-2`, `customrun-1`, `customrun-2`, `customrun-1` in `foo`:
the second `customrun-2` fails and the last name is not attempted. -/
theorem deleteCustomRuns_repeated_name_witness :
    firstFailure fixtureResource fooClients "foo"
      (["customrun-2"] ++ "customrun-1" :: ([] ++ "customrun-1" :: ["customrun-2"])) = some 2 ∧
    (deleteCustomRuns fixtureResource freshStream fooClients "foo"
      (["customrun-2"] ++ "customrun-1" :: ([] ++ "customrun-1" :: ["customrun-2"]))
      []).clients.Dynamic.actions =
      [deleteAction fixtureResource "foo" "customrun-2",
       deleteAction fixtureResource "foo" "customrun-1",
       deleteAction fixtureResource "foo" "customrun-1"] :=
  have h := deleteCustomRuns_repeated_name fixtureResource freshStream fooClients "foo"
    "customrun-1" ["customrun-2"] [] ["customrun-2"] [] (by decide) (by decide) (by decide)
  ⟨h.1, h.2.2.2.1⟩

/-- Counterexample to C10 as stated. In `foo`, with `customrun-1` and `customrun-2` present,
take the list `customrun-2`, `customrun-2`, `customrun-1`, `customrun-1` and `n` =
`customrun-1`: `n` occurs twice and every name before its second occurrence exists, yet the
first failure is at index 1, `n` is never deleted, and only two deletes are made. And with
the stream `&cli.Stream{}`, the list `customrun-1`, `customrun-1` makes the call panic at
the second occurrence, so no error is returned. -/
theorem repeated_name_earlier_duplicate_fails_first :
    existsIn fixtureResource fooClients "foo" "customrun-1" = true ∧
    (∀ m ∈ ["customrun-2", "customrun-2", "customrun-1"],
      existsIn fixtureResource fooClients "foo" m = true) ∧
    firstFailure fixtureResource fooClients "foo"
      ["customrun-2", "customrun-2", "customrun-1", "customrun-1"] = some 1 ∧
    existsIn fixtureResource (deleteCustomRuns fixtureResource freshStream fooClients "foo"
      ["customrun-2", "customrun-2", "customrun-1", "customrun-1"] []).clients
      "foo" "customrun-1" = true ∧
    (deleteCustomRuns fixtureResource freshStream fooClients "foo"
      ["customrun-2", "customrun-2", "customrun-1", "customrun-1"] []).clients.Dynamic.actions =
      [deleteAction fixtureResource "foo" "customrun-2",
       deleteAction fixtureResource "foo" "customrun-2"] ∧
    (deleteCustomRuns fixtureResource emptyStream fooClients "foo"
      ["customrun-1", "customrun-1"] []).ret = .panicked := by
  decide


/-- Claim C7: the validator of the delete command, `cobra.MinimumNArgs(1)`, rejects the
empty argument list with an error, and running the command on it returns that error
without running `RunE`: the world is as before, so `p.Clients()` has not been called and
no delete was made. Every argument list of length at least 1 is accepted, `RunE` runs on
it, and the list passed to `deleteCustomRuns` as the names to delete is the argument list
itself. -/
theorem deleteCommand_requires_names (g : GroupVersionResource) (p : Params) (w : World) :
    (∃ err, (deleteCommand g p).Args [] = some err ∧
      (deleteCommand g p).execute w [] = (.returned (some err), w)) ∧
    (∀ args : List String, 1 ≤ args.length →
      (deleteCommand g p).Args args = none ∧
      (deleteCommand g p).execute w args = (deleteCommand g p).RunE w args ∧
      (∀ cs, p.Clients = .ok cs →
        ((deleteCommand g p).execute w args).1 =
          (deleteCustomRuns g ⟨some w.InOrStdin, some w.OutOrStdout, some w.OutOrStderr⟩ cs
            p.Namespace args w.log).ret ∧
        ((deleteCommand g p).execute w args).2.clients =
          some (deleteCustomRuns g ⟨some w.InOrStdin, some w.OutOrStdout, some w.OutOrStderr⟩ cs
            p.Namespace args w.log).clients ∧
        ((deleteCommand g p).execute w args).2.clientsCalls = w.clientsCalls + 1)) := by
  constructor
  · exact ⟨_, rfl, rfl⟩
  · intro args hlen
    have hargs : (deleteCommand g p).Args args = none := by
      show MinimumNArgs 1 args = none
      unfold MinimumNArgs
      rw [if_neg (by omega)]
    have hexec : (deleteCommand g p).execute w args = (deleteCommand g p).RunE w args := by
      unfold Command.execute
      rw [hargs]
    refine ⟨hargs, hexec, ?_⟩
    intro cs hcs
    rw [hexec]
    show (deleteCommandRunE g p w args).1 = _ ∧ (deleteCommandRunE g p w args).2.clients = _ ∧
      (deleteCommandRunE g p w args).2.clientsCalls = _
    unfold deleteCommandRunE
    simp only [hcs]
    cases hret : (deleteCustomRuns g ⟨some w.InOrStdin, some w.OutOrStdout, some w.OutOrStderr⟩ cs
        p.Namespace args w.log).ret with
    | panicked => exact ⟨rfl, rfl, rfl⟩
    | returned e =>
      cases e with
      | none => exact ⟨rfl, rfl, rfl⟩
      | some err => exact ⟨rfl, rfl, rfl⟩

/-- Witness for C7: the command on `customrun-1` in the fixture deletes it, and on no
arguments leaves the fresh world untouched. -/
theorem deleteCommand_requires_names_witness :
    ((deleteCommand fixtureResource fooParams).execute freshWorld []).2 = freshWorld ∧
    (deleteCommand fixtureResource fooParams).Args ["customrun-1"] = none ∧
    ((deleteCommand fixtureResource fooParams).execute freshWorld ["customrun-1"]).1 =
      .returned none :=
  have h := deleteCommand_requires_names fixtureResource fooParams freshWorld
  have h1 := h.2 ["customrun-1"] (by decide)
  ⟨by obtain ⟨err, _, he⟩ := h.1; rw [he],
   h1.1, ((h1.2.2 fooClients rfl).1).trans (by decide)⟩

end Tkn

namespace Plugin

/-- Claim C6: when the command token is not a built-in, the locator finds a plugin for it on
the resolved search path, and the plugin process, spawned with the remaining tokens as
its arguments and the parent environment, exits normally with code `N`, the host process
exits with exactly `N`, whatever `N` is. -/
theorem exit_code_transparency (h : Host) (token : String) (rest : List String)
    (c : PluginCandidate) (N : Int)
    (hb : token ∉ h.builtins)
    (hf : Find h token (Resolve h) = .found c)
    (hx : h.spawn ⟨c.absolutePath, rest, h.environment⟩ = .exited N) :
    route h token rest = .plugin ⟨c.absolutePath, rest, h.environment⟩ ∧
    hostExit h token rest = N := by
  have hr : route h token rest = .plugin ⟨c.absolutePath, rest, h.environment⟩ := by
    unfold route
    rw [if_neg hb, hf]
  refine ⟨hr, ?_⟩
  unfold hostExit
  rw [hr]
  simp only [Invoke, hx, Translate]

/-- Witness for C6: the scenarios of `TestTknPlugin`. The plugin `success` exits 0 with and
without the arguments `with args`; `failure` exits 12 with and without trailing arguments,
and 20 when given `exit20`. -/
theorem exit_code_transparency_witness :
    hostExit e2eHost "success" [] = 0 ∧
    hostExit e2eHost "success" ["with", "args"] = 0 ∧
    hostExit e2eHost "failure" [] = 12 ∧
    hostExit e2eHost "failure" ["with", "args"] = 12 ∧
    hostExit e2eHost "failure" ["exit20"] = 20 :=
  ⟨(exit_code_transparency e2eHost "success" []
      ⟨"success", "/test/e2e/plugin", "/test/e2e/plugin/tkn-success", true⟩ 0
      (by decide) (by decide) (by decide)).2,
   (exit_code_transparency e2eHost "success" ["with", "args"]
      ⟨"success", "/test/e2e/plugin", "/test/e2e/plugin/tkn-success", true⟩ 0
      (by decide) (by decide) (by decide)).2,
   (exit_code_transparency e2eHost "failure" []
      ⟨"failure", "/test/e2e/plugin", "/test/e2e/plugin/tkn-failure", true⟩ 12
      (by decide) (by decide) (by decide)).2,
   (exit_code_transparency e2eHost "failure" ["with", "args"]
      ⟨"failure", "/test/e2e/plugin", "/test/e2e/plugin/tkn-failure", true⟩ 12
      (by decide) (by decide) (by decide)).2,
   (exit_code_transparency e2eHost "failure" ["exit20"]
      ⟨"failure", "/test/e2e/plugin", "/test/e2e/plugin/tkn-failure", true⟩ 20
      (by decide) (by decide) (by decide)).2⟩

end Plugin
